import Mathlib

/-!
A shallow embedding of the pinned-staging memory pool implemented in
src/drivers/ptx-jni/src/main/cpp/source/PTXStream.cpp.

Modelling choices:
* StagingAreaList nodes (regions) are identified by natural-number ids,
  allocated from a counter; their records live in an association list
  (the heap of region nodes).  Pinned buffers returned by cuMemAllocHost
  are likewise identified by ids from a second counter.
* The global queue of free regions (front/rear pointers, QueueNode cells)
  is modelled as the list of region ids held in the queue, front first:
  enqueue appends at the back, dequeue pops the front, exactly as the
  pointer code does.  The registry (the global head pointer with the
  StagingAreaList.next chain) is modelled as an Option head pointer plus
  the per-region next field, and the chain is read out with fuel.
* Driver calls (cuMemAllocHost, cuMemFreeHost, cuEventQuery,
  cuStreamDestroy, cuMemcpy*Async, cuStreamAddCallback) receive their
  CUresult from an oracle list threaded through the state; an exhausted
  oracle yields CUDA_SUCCESS.  Device semantics (from the spec's
  EventBracket contract: completion of the after marker implies the
  bracketed asynchronous copy has finished) is modelled by a list of
  pending device-to-host copies that are applied to buffer contents when
  an event is observed complete or synchronized.
* Every externally visible step is appended to a log of actions, so
  ordering claims are statements about the log.  An uninitialized
  CUresult (the local result of free_staging_area_list when the loop body
  never runs) is modelled as the value none of Option Nat.
-/

namespace PTXStream

/-- CUresult codes; CUDA_SUCCESS is 0. -/
abbrev CUresult := Nat

/-- Observable actions of the native code, in program order. -/
inductive Action where
  /-- dequeue returned this region (none when the free queue was empty). -/
  | dequeued (r : Option Nat)
  /-- enqueue placed this region at the back of the free queue. -/
  | enqueued (r : Nat)
  /-- cuMemAllocHost succeeded, returning this fresh pinned buffer. -/
  | allocHost (buf : Nat)
  /-- cuMemAllocHost reported a non-success status. -/
  | allocFail
  /-- cuMemFreeHost succeeded on this buffer. -/
  | freeHost (buf : Nat)
  /-- cuMemFreeHost reported a non-success status for this buffer. -/
  | freeFail (buf : Nat)
  | eventsCreate
  | eventBegin
  | eventEnd
  /-- cuMemcpyDtoHAsync was issued into this buffer for this many bytes. -/
  | memcpyDtoHAsync (buf len : Nat)
  /-- cuMemcpyHtoDAsync was issued from this buffer for this many bytes. -/
  | memcpyHtoDAsync (buf len : Nat)
  /-- cuEventQuery observed the after event (true when already complete). -/
  | eventQuery (complete : Bool)
  /-- cuEventSynchronize waited for the after event. -/
  | eventSynchronize
  /-- SetByteArrayRegion copied staging contents into this caller array. -/
  | writeHostArray (arr : Nat)
  /-- GetByteArrayRegion copied caller data into this staging buffer. -/
  | readHostArray (buf : Nat)
  /-- cuStreamAddCallback registered set_to_unused for this region. -/
  | addCallback (r : Nat)
  /-- the code dereferenced a NULL StagingAreaList pointer (undefined behavior). -/
  | nullDeref
  /-- cuStreamDestroy was called. -/
  | streamDestroy
deriving Repr, DecidableEq

/-- One StagingAreaList node: pinned buffer id, its length in bytes, and the
next pointer of the allocated-areas chain (PTXStream.cpp lines 49-53). -/
structure Area where
  staging_area : Nat
  length : Nat
  next : Option Nat
deriving Repr, DecidableEq

/-- The global state of PTXStream.cpp: the free queue (front/rear),
the allocated-areas head pointer, the heap of region nodes, fresh-id
counters, the driver-result oracle, host/pinned buffer contents, pending
asynchronous device-to-host copies, registered stream callbacks, and the
action log. -/
structure St where
  front : List Nat
  headPtr : Option Nat
  areas : List (Nat × Area)
  nextRegion : Nat
  nextBuffer : Nat
  oracle : List Nat
  bufContents : List (Nat × Nat)
  pending : List (Nat × Nat)
  callbacks : List Nat
  log : List Action
deriving Repr, DecidableEq

/-- Append one action to the log. -/
def logA (a : Action) (s : St) : St :=
  { s with log := s.log ++ [a] }

/-- Pop the next driver-call result from the oracle (success when empty). -/
def popResult (s : St) : Nat × St :=
  match s.oracle with
  | [] => (0, s)
  | r :: rest => (r, { s with oracle := rest })

/-- Set a key in an association list, replacing an existing binding. -/
def setAssoc {α : Type} (k : Nat) (v : α) : List (Nat × α) → List (Nat × α)
  | [] => [(k, v)]
  | (k2, v2) :: rest => if k2 = k then (k, v) :: rest else (k2, v2) :: setAssoc k v rest

/-- Look a key up in an association list. -/
def lookupA {α : Type} (k : Nat) : List (Nat × α) → Option α
  | [] => none
  | (k2, v2) :: rest => if k2 = k then some v2 else lookupA k rest

/-- Read a region node from the heap. -/
def getArea (s : St) (r : Nat) : Option Area :=
  lookupA r s.areas

/-- Write a region node to the heap. -/
def setArea (r : Nat) (a : Area) (s : St) : St :=
  { s with areas := setAssoc r a s.areas }

/-- Remove a region node from the heap (models free of the list node). -/
def removeArea (r : Nat) (s : St) : St :=
  { s with areas := s.areas.filter (fun p => p.1 != r) }

/-- cuMemAllocHost: on success yields a fresh pinned buffer id. -/
def cuMemAllocHost (s : St) : Option Nat × St :=
  let (r, s) := popResult s
  if r = 0 then
    (some s.nextBuffer,
      logA (Action.allocHost s.nextBuffer) { s with nextBuffer := s.nextBuffer + 1 })
  else (none, logA Action.allocFail s)

/-- cuMemFreeHost on a buffer; returns the driver result code. -/
def cuMemFreeHost (buf : Nat) (s : St) : CUresult × St :=
  let (r, s) := popResult s
  if r = 0 then (0, logA (Action.freeHost buf) s)
  else (r, logA (Action.freeFail buf) s)

/-- enqueue (PTXStream.cpp lines 77-92): append a region at the rear of the
free queue.  The front/rear pointer cases of the source collapse to a list
append. -/
def enqueue (r : Nat) (s : St) : St :=
  logA (Action.enqueued r) { s with front := s.front ++ [r] }

/-- dequeue (PTXStream.cpp lines 97-107): pop the front of the free queue,
or return NULL when it is empty. -/
def dequeue (s : St) : Option Nat × St :=
  match s.front with
  | [] => (none, logA (Action.dequeued none) s)
  | r :: rest => (some r, logA (Action.dequeued (some r)) { s with front := rest })

/-- free_queue (PTXStream.cpp lines 112-121): frees every QueueNode cell,
leaving the queue empty.  Region nodes and buffers are untouched. -/
def free_queue (s : St) : St :=
  { s with front := [] }

/-- check_or_init_staging_area (PTXStream.cpp lines 126-157).
Create branch: malloc a node (fresh region id, counted even on failure, as
the source leaks the node), cuMemAllocHost; on failure return NULL.
Update branch: if the region is too small, cuMemFreeHost the old buffer and
cuMemAllocHost a new one, updating length; on any driver failure return
NULL. -/
def check_or_init_staging_area (size : Nat) (list : Option Nat) (s : St) :
    Option Nat × St :=
  match list with
  | none =>
    let rid := s.nextRegion
    let s := { s with nextRegion := rid + 1 }
    let (b, s) := cuMemAllocHost s
    match b with
    | none => (none, s)
    | some b => (some rid, setArea rid ⟨b, size, none⟩ s)
  | some rid =>
    match getArea s rid with
    | none => (none, s)
    | some a =>
      if a.length < size then
        let (r, s) := cuMemFreeHost a.staging_area s
        if r = 0 then
          let (b, s) := cuMemAllocHost s
          match b with
          | none => (none, s)
          | some b => (some rid, setArea rid ⟨b, size, a.next⟩ s)
        else (none, s)
      else (some rid, s)

/-- get_first_free_staging_area (PTXStream.cpp lines 162-170): dequeue a
free region, fit or create it, and set the allocated-areas head pointer
only when it is currently NULL. -/
def get_first_free_staging_area (size : Nat) (s : St) : Option Nat × St :=
  let (l, s) := dequeue s
  let (l2, s) := check_or_init_staging_area size l s
  let s := if s.headPtr = none then { s with headPtr := l2 } else s
  (l2, s)

/-- set_to_unused (PTXStream.cpp lines 175-178): the completion callback;
enqueues the region back onto the free queue. -/
def set_to_unused (r : Nat) (s : St) : St :=
  enqueue r s

/-- The loop of free_staging_area_list, walking the next chain from the
head pointer.  last carries the value of the local result variable, which
is uninitialized (none) until the first cuMemFreeHost call.  The fuel is
an upper bound on the chain length; it never runs out on states the code
can reach. -/
def freeAreaLoop : Nat → Option Nat → Option Nat → St → Option Nat × St
  | 0, _, last, s => (last, s)
  | _ + 1, none, last, s => (last, s)
  | fuel + 1, some rid, last, s =>
    match getArea s rid with
    | none => (last, s)
    | some a =>
      let (r, s) := cuMemFreeHost a.staging_area s
      freeAreaLoop fuel a.next (some r) (removeArea rid s)

/-- free_staging_area_list (PTXStream.cpp lines 183-196): frees the buffer
and node of every region on the chain from head, leaving head NULL, and
returns the result of the last cuMemFreeHost call - or the uninitialized
local result (modelled as none) when the chain was already empty. -/
def free_staging_area_list (s : St) : Option Nat × St :=
  let (last, t) := freeAreaLoop (s.nextRegion + 1) s.headPtr none s
  (last, { t with headPtr := none })

/-- cuDestroyStream (PTXStream.cpp lines 665-676): destroy the stream,
free the queue cells, tear down the staging areas, and return the bitwise
AND of the two result codes.  A bitwise AND with an undefined operand is
undefined, hence the Option.map. -/
def cuDestroyStream (s : St) : Option Nat × St :=
  let (result, s) := popResult s
  let s := logA Action.streamDestroy s
  let s := free_queue s
  let (stagingAreaResult, s) := free_staging_area_list s
  (stagingAreaResult.map (fun x => Nat.land result x), s)

/-- The empty initial state: no regions, empty queue, NULL head. -/
def initState : St :=
  ⟨[], none, [], 0, 0, [], [], [], [], []⟩

/-- The registry contents: the chain of region ids reachable from the head
pointer through next fields, read with fuel. -/
def registryChain (s : St) : Nat → Option Nat → List Nat
  | 0, _ => []
  | _ + 1, none => []
  | fuel + 1, some r =>
    match getArea s r with
    | none => [r]
    | some a => r :: registryChain s fuel a.next

/-- All regions currently recorded in the allocated-areas list. -/
def registry (s : St) : List Nat :=
  registryChain s (s.nextRegion + 1) s.headPtr

/-- Apply all pending asynchronous device-to-host copies to buffer contents,
in issue order.  Invoked when the device is known to have completed the
operations on the stream (event observed complete, or a synchronize). -/
def applyPendings (s : St) : St :=
  { s with
    bufContents := s.pending.foldl (fun m p => setAssoc p.1 p.2 m) s.bufContents,
    pending := [] }

/-- cuMemcpyDtoHAsync: issue an asynchronous copy of the device value into
the given host buffer.  The copy lands only on completion (it joins the
pending list); an issue failure from the driver means no copy occurs.  The
source only logs the result. -/
def cuMemcpyDtoHAsync (buf len devVal : Nat) (s : St) : St :=
  let (rc, s) := popResult s
  let s := logA (Action.memcpyDtoHAsync buf len) s
  if rc = 0 then { s with pending := s.pending ++ [(buf, devVal)] } else s

/-- cuMemcpyHtoDAsync: issue an asynchronous copy from the given host buffer
to the device.  The device-side effect is outside the model; the source
only logs the result. -/
def cuMemcpyHtoDAsync (buf len : Nat) (s : St) : St :=
  let (_, s) := popResult s
  logA (Action.memcpyHtoDAsync buf len) s

/-- cuEventQuery on the after event: returns CUDA_SUCCESS exactly when the
event has completed, in which case (per the spec's EventBracket contract)
every operation issued before it - the pending copies - has finished. -/
def cuEventQuery (s : St) : Bool × St :=
  let (q, s) := popResult s
  if q = 0 then (true, logA (Action.eventQuery true) (applyPendings s))
  else (false, logA (Action.eventQuery false) s)

/-- cuEventSynchronize on the after event: blocks until completion, after
which every pending copy has landed. -/
def cuEventSynchronize (s : St) : St :=
  logA Action.eventSynchronize (applyPendings s)

/-- cuStreamAddCallback registering set_to_unused for the region: on
success the region joins the list of callbacks the device runtime will
fire after the preceding stream operations complete. -/
def cuStreamAddCallback (r : Nat) (s : St) : St :=
  let (rc, s) := popResult s
  let s := logA (Action.addCallback r) s
  if rc = 0 then { s with callbacks := s.callbacks ++ [r] } else s

/-- transferFromDeviceToHostBlock (PTXStream.cpp lines 209-228): acquire a
staging region, record the bracket, issue the device-to-host copy into the
staging buffer, wait for the after event unless it is already complete,
copy the staging contents into the caller array, enqueue the region, and
return the bracket.  devVal is the device memory content, callerArr the
caller-visible destination array.  When acquisition returned NULL the code
dereferences the NULL pointer at the cuMemcpyDtoHAsync argument. -/
def transferFromDeviceToHostBlock (devVal len callerArr : Nat) (s : St) : St :=
  let (sl, s) := get_first_free_staging_area len s
  let s := logA Action.eventsCreate s
  let s := logA Action.eventBegin s
  match sl with
  | none => logA Action.nullDeref s
  | some rid =>
    match getArea s rid with
    | none => logA Action.nullDeref s
    | some a =>
      let s := cuMemcpyDtoHAsync a.staging_area len devVal s
      let s := logA Action.eventEnd s
      let (complete, s) := cuEventQuery s
      let s := if complete then s else cuEventSynchronize s
      let v := (lookupA a.staging_area s.bufContents).getD 0
      let s := logA (Action.writeHostArray callerArr)
        { s with bufContents := setAssoc callerArr v s.bufContents }
      set_to_unused rid s

/-- transferFromDeviceToHostAsync (PTXStream.cpp lines 230-249): pin the
caller array pointer, record the bracket, issue the copy directly into the
caller array, then call cuMemFreeHost on the caller array pointer (the
line marked FIXME in the source) and unpin it.  No staging region is
involved.  callerArr names the caller-owned destination buffer. -/
def transferFromDeviceToHostAsync (devVal len callerArr : Nat) (s : St) : St :=
  let s := logA Action.eventsCreate s
  let s := logA Action.eventBegin s
  let s := cuMemcpyDtoHAsync callerArr len devVal s
  let s := logA Action.eventEnd s
  let (_, s) := cuMemFreeHost callerArr s
  s

/-- transferFromHostToDeviceBlocking (PTXStream.cpp lines 392-418): acquire
a staging region, copy the caller data into it, record the bracket, issue
the host-to-device copy from it, and register set_to_unused as the stream
callback; returns without any wait.  When acquisition returned NULL the
code dereferences the NULL pointer at the GetByteArrayRegion argument. -/
def transferFromHostToDeviceBlocking (len callerArr : Nat) (s : St) : St :=
  let (sl, s) := get_first_free_staging_area len s
  match sl with
  | none => logA Action.nullDeref s
  | some rid =>
    match getArea s rid with
    | none => logA Action.nullDeref s
    | some a =>
      let v := (lookupA callerArr s.bufContents).getD 0
      let s := logA (Action.readHostArray a.staging_area)
        { s with bufContents := setAssoc a.staging_area v s.bufContents }
      let s := logA Action.eventsCreate s
      let s := logA Action.eventBegin s
      let s := cuMemcpyHtoDAsync a.staging_area len s
      let s := logA Action.eventEnd s
      cuStreamAddCallback rid s

/-- transferFromHostToDeviceAsync (PTXStream.cpp lines 420-447): identical
behaviour to the blocking variant (the source differs only in where the
stream handle is unmarshalled, which is outside the model): acquire, copy
in, bracket, issue, register the callback, return without waiting. -/
def transferFromHostToDeviceAsync (len callerArr : Nat) (s : St) : St :=
  let (sl, s) := get_first_free_staging_area len s
  match sl with
  | none => logA Action.nullDeref s
  | some rid =>
    match getArea s rid with
    | none => logA Action.nullDeref s
    | some a =>
      let v := (lookupA callerArr s.bufContents).getD 0
      let s := logA (Action.readHostArray a.staging_area)
        { s with bufContents := setAssoc a.staging_area v s.bufContents }
      let s := logA Action.eventsCreate s
      let s := logA Action.eventBegin s
      let s := cuMemcpyHtoDAsync a.staging_area len s
      let s := logA Action.eventEnd s
      cuStreamAddCallback rid s

/-- Pool-level operations: an acquisition by a transfer, or the firing of a
completion callback releasing an in-flight region.  The spec (section 7)
classifies releasing a region that is not in flight as LifecycleMisuse, a
programming error, so release only acts on currently held regions. -/
inductive Op where
  | acquire (size : Nat)
  | release (r : Nat)
deriving Repr, DecidableEq

/-- One pool-level step on the state paired with the list of in-flight
(held) regions. -/
def stepOp : St × List Nat → Op → St × List Nat
  | (s, held), Op.acquire n =>
    match get_first_free_staging_area n s with
    | (some r, s2) => (s2, held ++ [r])
    | (none, s2) => (s2, held)
  | (s, held), Op.release r =>
    if r ∈ held then (set_to_unused r s, held.erase r) else (s, held)

/-- Run a sequence of pool-level operations from the initial state. -/
def runOps (ops : List Op) : St × List Nat :=
  ops.foldl stepOp (initState, [])

/-- The pool invariant: the free queue has no duplicates, is disjoint from
the in-flight regions, both are bounded by the region counter, and no
region is in flight twice. -/
def PoolInv (p : St × List Nat) : Prop :=
  p.1.front.Nodup ∧
  (∀ r ∈ p.1.front, r ∉ p.2) ∧
  (∀ r ∈ p.1.front, r < p.1.nextRegion) ∧
  (∀ r ∈ p.2, r < p.1.nextRegion) ∧
  p.2.Nodup

/-! Helper lemmas. -/

/-- Setting a key in an association list makes it readable. -/
theorem lookupA_setAssoc {α : Type} (k : Nat) (v : α) (l : List (Nat × α)) :
    lookupA k (setAssoc k v l) = some v := by
  induction l with
  | nil => simp [setAssoc, lookupA]
  | cons p rest ih =>
    obtain ⟨k2, v2⟩ := p
    by_cases hk : k2 = k <;> simp [setAssoc, lookupA, hk, ih]

/-! Theorems for the claims. -/

/-- C1: the claim states that every region in the free pool or in flight is
recorded in the registry, each region being recorded exactly once at
creation.  The code records only the first region ever created (the head
pointer is assigned only when it is NULL), so after two acquisitions with
no intervening release the second in-flight region is absent from the
registry: the in-flight regions are 0 and 1, while the registry holds
only region 0. -/
theorem C1_second_region_not_recorded :
    (runOps [Op.acquire 1, Op.acquire 1]).2 = [0, 1] ∧
    registry (runOps [Op.acquire 1, Op.acquire 1]).1 = [0] := by decide

/-- C2: the claim states that after destroy every region ever created has
had its pinned buffer released exactly once and the pool and registry are
empty.  Running two transfers concurrently creates regions 0 and 1 with
buffers 0 and 1; after both are released and the stream is destroyed, the
pool and registry are indeed empty, but the final log shows buffer 0 freed
once and buffer 1 never freed: region 1 was never registered, so its
buffer leaks. -/
theorem C2_teardown_leaks_unregistered_buffer :
    ((cuDestroyStream
        (runOps [Op.acquire 1, Op.acquire 1, Op.release 0, Op.release 1]).1).2.front
      = []) ∧
    ((cuDestroyStream
        (runOps [Op.acquire 1, Op.acquire 1, Op.release 0, Op.release 1]).1).2.headPtr
      = none) ∧
    ((cuDestroyStream
        (runOps [Op.acquire 1, Op.acquire 1, Op.release 0, Op.release 1]).1).2.log
      = [Action.dequeued none, Action.allocHost 0, Action.dequeued none,
         Action.allocHost 1, Action.enqueued 0, Action.enqueued 1,
         Action.streamDestroy, Action.freeHost 0]) := by decide

/-- C5: the claim states that when the pinned allocation fails the transfer
aborts without being granted a region.  The acquire-level part holds: the
failed region is discarded and the free queue stays empty.  But the
transfer does not abort: with an empty pool and a failing cuMemAllocHost,
transferFromDeviceToHostBlock proceeds to dereference the NULL staging
list at the cuMemcpyDtoHAsync argument (undefined behavior), as the final
log shows. -/
theorem C5_transfer_dereferences_null_on_allocation_failure :
    ((transferFromDeviceToHostBlock 42 4 9 { initState with oracle := [1] }).log
      = [Action.dequeued none, Action.allocFail, Action.eventsCreate,
         Action.eventBegin, Action.nullDeref]) ∧
    ((transferFromDeviceToHostBlock 42 4 9 { initState with oracle := [1] }).front
      = []) ∧
    ((transferFromDeviceToHostBlock 42 4 9 { initState with oracle := [1] }).headPtr
      = none) := by decide

/-- C9: the claim states that destroy surfaces every failure with a
non-success status.  On a stream with one registered region, when
cuStreamDestroy succeeds (0) and the teardown cuMemFreeHost fails (code 4,
visible as freeFail in the log), the returned value is the bitwise AND
0 land 4 = 0, i.e. CUDA_SUCCESS: the teardown failure is masked. -/
theorem C9_destroy_masks_teardown_failure :
    ((cuDestroyStream
        ⟨[0], some 0, [(0, ⟨0, 1, none⟩)], 1, 1, [0, 4], [], [], [], []⟩).1
      = some 0) ∧
    ((cuDestroyStream
        ⟨[0], some 0, [(0, ⟨0, 1, none⟩)], 1, 1, [0, 4], [], [], [], []⟩).2.log
      = [Action.streamDestroy, Action.freeFail 0]) := by decide

/-- C10: the claim states that releaseAll on an empty registry is a no-op
and returns a well-defined (initialized) status.  With a NULL head the
loop body of free_staging_area_list never runs, so the state is indeed
unchanged, but the returned status is the uninitialized local result
variable (modelled as none): the returned value is not a well-defined
initialized status. -/
theorem C10_releaseAll_on_empty_registry (s : St) (h : s.headPtr = none) :
    free_staging_area_list s = (none, s) := by
  obtain ⟨front, headPtr, areas, nr, nb, oracle, bc, pend, cb, log⟩ := s
  simp only at h
  subst h
  simp [free_staging_area_list, freeAreaLoop]

/-- Witness for C10 at the initial (empty) state. -/
theorem C10_witness : free_staging_area_list initState = (none, initState) :=
  C10_releaseAll_on_empty_registry initState rfl

/-- C6: acquire of n bytes on a pool whose only free region has capacity
m < n returns that region grown: the result is the dequeued region, whose
recorded length becomes exactly n (hence at least n) with a fresh
replacement buffer, and the log extension shows the old undersized buffer
freed exactly once, before the replacement allocation. -/
theorem C6_growth_frees_old_buffer_once
    (s : St) (r b m n : Nat) (nx : Option Nat)
    (hfront : s.front = [r])
    (harea : getArea s r = some ⟨b, m, nx⟩)
    (hm : m < n)
    (horacle : s.oracle = []) :
    (get_first_free_staging_area n s).1 = some r ∧
    getArea (get_first_free_staging_area n s).2 r = some ⟨s.nextBuffer, n, nx⟩ ∧
    (get_first_free_staging_area n s).2.log =
      s.log ++ [Action.dequeued (some r), Action.freeHost b,
                Action.allocHost s.nextBuffer] := by
  have harea2 : lookupA r s.areas = some ⟨b, m, nx⟩ := harea
  by_cases hh : s.headPtr = none <;>
    simp [get_first_free_staging_area, dequeue, check_or_init_staging_area,
      cuMemFreeHost, cuMemAllocHost, popResult, logA, setArea, getArea,
      lookupA_setAssoc, hfront, harea2, hm, horacle, hh]

/-- Witness for C6: a pool holding one region of capacity 8 asked for 10
bytes returns that region with length 10 and a fresh buffer. -/
theorem C6_witness :
    (get_first_free_staging_area 10
      ⟨[0], some 0, [(0, ⟨5, 8, none⟩)], 1, 6, [], [], [], [], []⟩).1 = some 0 ∧
    getArea (get_first_free_staging_area 10
      ⟨[0], some 0, [(0, ⟨5, 8, none⟩)], 1, 6, [], [], [], [], []⟩).2 0 =
      some ⟨6, 10, none⟩ :=
  ⟨(C6_growth_frees_old_buffer_once
      ⟨[0], some 0, [(0, ⟨5, 8, none⟩)], 1, 6, [], [], [], [], []⟩
      0 5 8 10 none rfl rfl (by decide) rfl).1,
   (C6_growth_frees_old_buffer_once
      ⟨[0], some 0, [(0, ⟨5, 8, none⟩)], 1, 6, [], [], [], [], []⟩
      0 5 8 10 none rfl rfl (by decide) rfl).2.1⟩

/-- C3: on a blocking device-to-host transfer that acquires an adequate
free region (and whose copy issues successfully, with q the driver answer
to the completion query), the log shows: the after event is queried and,
exactly when it is not already complete, synchronized; only then is the
staging content copied into the caller-visible destination; only after
that copy is the region enqueued back onto the free pool.  On return the
destination array holds the transferred device value, with no further wait
needed, and the region is back in the pool. -/
theorem C3_blocking_transfer_orders_wait_copy_release
    (s : St) (r b m devVal len callerArr q : Nat) (nx : Option Nat)
    (hfront : s.front = [r])
    (harea : getArea s r = some ⟨b, m, nx⟩)
    (hm : len ≤ m)
    (hpend : s.pending = [])
    (horacle : s.oracle = [0, q]) :
    lookupA callerArr
        (transferFromDeviceToHostBlock devVal len callerArr s).bufContents
      = some devVal ∧
    (transferFromDeviceToHostBlock devVal len callerArr s).front = [r] ∧
    (transferFromDeviceToHostBlock devVal len callerArr s).log =
      s.log ++ [Action.dequeued (some r), Action.eventsCreate, Action.eventBegin,
                Action.memcpyDtoHAsync b len, Action.eventEnd] ++
        (if q = 0 then [Action.eventQuery true]
         else [Action.eventQuery false, Action.eventSynchronize]) ++
        [Action.writeHostArray callerArr, Action.enqueued r] := by
  have harea2 : lookupA r s.areas = some ⟨b, m, nx⟩ := harea
  have hml : ¬ (m < len) := Nat.not_lt.mpr hm
  by_cases hq : q = 0 <;> by_cases hh : s.headPtr = none <;>
    simp [transferFromDeviceToHostBlock, get_first_free_staging_area, dequeue,
      check_or_init_staging_area, cuMemFreeHost, cuMemAllocHost, popResult,
      logA, setArea, getArea, cuMemcpyDtoHAsync, cuEventQuery,
      cuEventSynchronize, applyPendings, set_to_unused, enqueue,
      lookupA_setAssoc, hfront, harea2, hml, hpend, horacle, hq, hh]

/-- Witness for C3 in the not-yet-complete branch (query answer 7): the
destination array 9 holds the device value 42 on return and region 0 is
back in the pool. -/
theorem C3_witness :
    lookupA 9 (transferFromDeviceToHostBlock 42 4 9
      ⟨[0], some 0, [(0, ⟨5, 8, none⟩)], 1, 6, [0, 7], [], [], [], []⟩).bufContents
      = some 42 ∧
    (transferFromDeviceToHostBlock 42 4 9
      ⟨[0], some 0, [(0, ⟨5, 8, none⟩)], 1, 6, [0, 7], [], [], [], []⟩).front
      = [0] :=
  ⟨(C3_blocking_transfer_orders_wait_copy_release
      ⟨[0], some 0, [(0, ⟨5, 8, none⟩)], 1, 6, [0, 7], [], [], [], []⟩
      0 5 8 42 4 9 7 none rfl rfl (by decide) rfl rfl).1,
   (C3_blocking_transfer_orders_wait_copy_release
      ⟨[0], some 0, [(0, ⟨5, 8, none⟩)], 1, 6, [0, 7], [], [], [], []⟩
      0 5 8 42 4 9 7 none rfl rfl (by decide) rfl rfl).2.1⟩

/-- C7: the claim states that a non-blocking device-to-host transfer leaves
the free pool and registry unchanged and does not free the caller-owned
destination.  The frame part holds: no staging region is acquired and the
pool, registry, region heap and counters are untouched.  But the log shows
cuMemFreeHost invoked on the caller's destination buffer right after the
asynchronous copy is issued (the source line marked FIXME), contradicting
the part of the claim that says the destination is not freed by the
core. -/
theorem C7_async_dtoh_frame_but_frees_destination
    (s : St) (devVal len callerArr : Nat)
    (horacle : s.oracle = []) :
    (transferFromDeviceToHostAsync devVal len callerArr s).front = s.front ∧
    (transferFromDeviceToHostAsync devVal len callerArr s).headPtr = s.headPtr ∧
    (transferFromDeviceToHostAsync devVal len callerArr s).areas = s.areas ∧
    (transferFromDeviceToHostAsync devVal len callerArr s).nextRegion
      = s.nextRegion ∧
    (transferFromDeviceToHostAsync devVal len callerArr s).log =
      s.log ++ [Action.eventsCreate, Action.eventBegin,
                Action.memcpyDtoHAsync callerArr len, Action.eventEnd,
                Action.freeHost callerArr] := by
  simp [transferFromDeviceToHostAsync, cuMemcpyDtoHAsync, cuMemFreeHost,
    popResult, logA, horacle]

/-- Witness for C7 at the initial state: pool and registry untouched, and
the destination buffer 9 is passed to cuMemFreeHost. -/
theorem C7_witness :
    (transferFromDeviceToHostAsync 42 4 9 initState).front = initState.front ∧
    (transferFromDeviceToHostAsync 42 4 9 initState).log =
      initState.log ++ [Action.eventsCreate, Action.eventBegin,
        Action.memcpyDtoHAsync 9 4, Action.eventEnd, Action.freeHost 9] :=
  ⟨(C7_async_dtoh_frame_but_frees_destination initState 42 4 9 rfl).1,
   (C7_async_dtoh_frame_but_frees_destination initState 42 4 9 rfl).2.2.2.2⟩

/-- C4: a host-to-device transfer, in either mode, never enqueues the
acquired staging region back synchronously: the log extension of either
call contains no enqueued action and no wait (no eventQuery or
eventSynchronize: the call returns the bracket immediately), the region is
gone from the free pool, and instead set_to_unused is registered as the
stream completion callback for the region - the callback which, once the
device runtime fires it after the copy completes, enqueues the region
back into the free pool. -/
theorem C4_htod_releases_only_via_callback
    (s : St) (r b m len callerArr : Nat) (nx : Option Nat)
    (hfront : s.front = [r])
    (harea : getArea s r = some ⟨b, m, nx⟩)
    (hm : len ≤ m)
    (horacle : s.oracle = []) :
    (transferFromHostToDeviceBlocking len callerArr s).front = [] ∧
    (transferFromHostToDeviceBlocking len callerArr s).callbacks
      = s.callbacks ++ [r] ∧
    (transferFromHostToDeviceBlocking len callerArr s).log =
      s.log ++ [Action.dequeued (some r), Action.readHostArray b,
                Action.eventsCreate, Action.eventBegin,
                Action.memcpyHtoDAsync b len, Action.eventEnd,
                Action.addCallback r] ∧
    (transferFromHostToDeviceAsync len callerArr s).front = [] ∧
    (transferFromHostToDeviceAsync len callerArr s).callbacks
      = s.callbacks ++ [r] ∧
    (transferFromHostToDeviceAsync len callerArr s).log =
      s.log ++ [Action.dequeued (some r), Action.readHostArray b,
                Action.eventsCreate, Action.eventBegin,
                Action.memcpyHtoDAsync b len, Action.eventEnd,
                Action.addCallback r] ∧
    (∀ t : St, (set_to_unused r t).front = t.front ++ [r]) := by
  have harea2 : lookupA r s.areas = some ⟨b, m, nx⟩ := harea
  have hml : ¬ (m < len) := Nat.not_lt.mpr hm
  by_cases hh : s.headPtr = none <;>
    simp [transferFromHostToDeviceBlocking, transferFromHostToDeviceAsync,
      get_first_free_staging_area, dequeue, check_or_init_staging_area,
      cuMemFreeHost, cuMemAllocHost, popResult, logA, setArea, getArea,
      cuMemcpyHtoDAsync, cuStreamAddCallback, set_to_unused, enqueue,
      hfront, harea2, hml, horacle, hh]

/-- Witness for C4: both host-to-device entry points leave the pool without
the region and register its callback. -/
theorem C4_witness :
    (transferFromHostToDeviceBlocking 4 9
      ⟨[0], some 0, [(0, ⟨5, 8, none⟩)], 1, 6, [], [(9, 42)], [], [], []⟩).front
      = [] ∧
    (transferFromHostToDeviceAsync 4 9
      ⟨[0], some 0, [(0, ⟨5, 8, none⟩)], 1, 6, [], [(9, 42)], [], [], []⟩).front
      = [] :=
  ⟨(C4_htod_releases_only_via_callback
      ⟨[0], some 0, [(0, ⟨5, 8, none⟩)], 1, 6, [], [(9, 42)], [], [], []⟩
      0 5 8 4 9 none rfl rfl (by decide) rfl).1,
   (C4_htod_releases_only_via_callback
      ⟨[0], some 0, [(0, ⟨5, 8, none⟩)], 1, 6, [], [(9, 42)], [], [], []⟩
      0 5 8 4 9 none rfl rfl (by decide) rfl).2.2.2.1⟩

/-- check_or_init_staging_area returns NULL, the region it was given, or -
when given NULL - the freshly created region; it never touches the free
queue, and the region counter only grows.  When it creates a region the
counter strictly grows. -/
theorem check_or_init_spec (size : Nat) (l : Option Nat) (s : St) :
    ((check_or_init_staging_area size l s).1 = none ∨
     (check_or_init_staging_area size l s).1 = l ∨
     (l = none ∧ (check_or_init_staging_area size l s).1 = some s.nextRegion)) ∧
    (check_or_init_staging_area size l s).2.front = s.front ∧
    s.nextRegion ≤ (check_or_init_staging_area size l s).2.nextRegion ∧
    (l = none → s.nextRegion < (check_or_init_staging_area size l s).2.nextRegion) := by
  cases l with
  | none =>
    cases ho : s.oracle with
    | nil =>
      simp [check_or_init_staging_area, cuMemAllocHost, popResult, logA,
        setArea, ho]
    | cons c rest =>
      by_cases hc : c = 0 <;>
        simp [check_or_init_staging_area, cuMemAllocHost, popResult, logA,
          setArea, ho, hc]
  | some rid =>
    cases hA : getArea s rid with
    | none => simp [check_or_init_staging_area, hA]
    | some a =>
      by_cases hlen : a.length < size
      · cases ho : s.oracle with
        | nil =>
          simp [check_or_init_staging_area, hA, hlen, cuMemFreeHost,
            cuMemAllocHost, popResult, logA, setArea, ho]
        | cons c rest =>
          by_cases hc : c = 0
          · cases rest with
            | nil =>
              simp [check_or_init_staging_area, hA, hlen, cuMemFreeHost,
                cuMemAllocHost, popResult, logA, setArea, ho, hc]
            | cons d rest2 =>
              by_cases hd : d = 0 <;>
                simp [check_or_init_staging_area, hA, hlen, cuMemFreeHost,
                  cuMemAllocHost, popResult, logA, setArea, ho, hc, hd]
          · simp [check_or_init_staging_area, hA, hlen, cuMemFreeHost,
              cuMemAllocHost, popResult, logA, setArea, ho, hc]
      · simp [check_or_init_staging_area, hA, hlen]

/-- Acquisition always removes exactly the front element of the free queue
(or leaves it empty) and never re-inserts a region. -/
theorem acquire_front_tail (n : Nat) (s : St) :
    (get_first_free_staging_area n s).2.front = s.front.tail := by
  cases hf : s.front with
  | nil =>
    rcases hc : check_or_init_staging_area n none (logA (Action.dequeued none) s)
      with ⟨l2, s2⟩
    have hspec := (check_or_init_spec n none (logA (Action.dequeued none) s)).2.1
    rw [hc] at hspec
    simp only [logA] at hspec
    simp [get_first_free_staging_area, dequeue, hf, hc]
    split <;> simpa [hf] using hspec
  | cons r rest =>
    rcases hc : check_or_init_staging_area n (some r)
        (logA (Action.dequeued (some r)) { s with front := rest })
      with ⟨l2, s2⟩
    have hspec := (check_or_init_spec n (some r)
      (logA (Action.dequeued (some r)) { s with front := rest })).2.1
    rw [hc] at hspec
    simp only [logA] at hspec
    simp [get_first_free_staging_area, dequeue, hf, hc]
    split <;> simpa using hspec

/-- Acquisition never decreases the region counter. -/
theorem acquire_mono (n : Nat) (s : St) :
    s.nextRegion ≤ (get_first_free_staging_area n s).2.nextRegion := by
  cases hf : s.front with
  | nil =>
    rcases hc : check_or_init_staging_area n none (logA (Action.dequeued none) s)
      with ⟨l2, s2⟩
    have hspec := (check_or_init_spec n none (logA (Action.dequeued none) s)).2.2.1
    rw [hc] at hspec
    simp only [logA] at hspec
    simp [get_first_free_staging_area, dequeue, hf, hc]
    split <;> simpa using hspec
  | cons r rest =>
    rcases hc : check_or_init_staging_area n (some r)
        (logA (Action.dequeued (some r)) { s with front := rest })
      with ⟨l2, s2⟩
    have hspec := (check_or_init_spec n (some r)
      (logA (Action.dequeued (some r)) { s with front := rest })).2.2.1
    rw [hc] at hspec
    simp only [logA] at hspec
    simp [get_first_free_staging_area, dequeue, hf, hc]
    split <;> simpa using hspec

/-- A successful check_or_init returns the region it was given, or the
fresh region counted when it was given NULL. -/
theorem check_or_init_result (size : Nat) (l : Option Nat) (s : St) (r : Nat)
    (h : (check_or_init_staging_area size l s).1 = some r) :
    l = some r ∨ (l = none ∧ r = s.nextRegion) := by
  rcases (check_or_init_spec size l s).1 with h1 | h1 | ⟨h1, h2⟩
  · rw [h1] at h; cases h
  · rw [h] at h1; exact Or.inl h1.symm
  · rw [h2] at h; exact Or.inr ⟨h1, (Option.some_inj.mp h).symm⟩

/-- Creating a region strictly bumps the region counter. -/
theorem check_or_init_fresh (size : Nat) (s : St) :
    s.nextRegion < (check_or_init_staging_area size none s).2.nextRegion :=
  (check_or_init_spec size none s).2.2.2 rfl

/-- A successful acquisition hands out either the front of the free queue
or, when the queue was empty, the freshly counted region (strictly below
the updated counter). -/
theorem acquire_some_cases (n : Nat) (s : St) (r : Nat)
    (h : (get_first_free_staging_area n s).1 = some r) :
    (∃ rest, s.front = r :: rest) ∨
    (s.front = [] ∧ r = s.nextRegion ∧
      s.nextRegion < (get_first_free_staging_area n s).2.nextRegion) := by
  cases hf : s.front with
  | nil =>
    rcases hc : check_or_init_staging_area n none (logA (Action.dequeued none) s)
      with ⟨l2, s2⟩
    have h2 : l2 = some r := by
      rw [show (get_first_free_staging_area n s).1 = l2 from by
        simp [get_first_free_staging_area, dequeue, hf, hc]] at h
      exact h
    have hres := check_or_init_result n none (logA (Action.dequeued none) s) r
      (by rw [hc]; simpa using h2)
    rcases hres with hcontra | ⟨-, hr⟩
    · cases hcontra
    · refine Or.inr ⟨rfl, ?_, ?_⟩
      · simpa [logA] using hr
      · have hlt := check_or_init_fresh n (logA (Action.dequeued none) s)
        rw [hc] at hlt
        have hns : (get_first_free_staging_area n s).2.nextRegion
            = s2.nextRegion := by
          by_cases hh : s2.headPtr = none <;>
            simp [get_first_free_staging_area, dequeue, hf, hc, hh]
        rw [hns]
        simpa [logA] using hlt
  | cons r2 rest =>
    rcases hc : check_or_init_staging_area n (some r2)
        (logA (Action.dequeued (some r2)) { s with front := rest })
      with ⟨l2, s2⟩
    have h2 : l2 = some r := by
      rw [show (get_first_free_staging_area n s).1 = l2 from by
        simp [get_first_free_staging_area, dequeue, hf, hc]] at h
      exact h
    have hres := check_or_init_result n (some r2)
      (logA (Action.dequeued (some r2)) { s with front := rest }) r
      (by rw [hc]; simpa using h2)
    rcases hres with hsome | ⟨hcontra, -⟩
    · exact Or.inl ⟨rest, by rw [Option.some_inj.mp hsome]⟩
    · cases hcontra

/-- Every pool-level step preserves the pool invariant. -/
theorem stepOp_inv (p : St × List Nat) (op : Op) (h : PoolInv p) :
    PoolInv (stepOp p op) := by
  obtain ⟨s, held⟩ := p
  obtain ⟨hnd, hdisj, hfb, hhb, hheld⟩ := h
  cases op with
  | acquire n =>
    rcases hacq : get_first_free_staging_area n s with ⟨res, s2⟩
    have hft := acquire_front_tail n s
    have hmono := acquire_mono n s
    rw [hacq] at hft hmono
    have htail_mem : ∀ x ∈ s2.front, x ∈ s.front := by
      intro x hx
      rw [hft] at hx
      exact List.tail_subset _ hx
    have htail_nd : s2.front.Nodup := by
      rw [hft]
      exact hnd.sublist (List.tail_sublist _)
    cases res with
    | none =>
      simp only [stepOp, hacq, PoolInv]
      exact ⟨htail_nd,
        fun x hx => hdisj x (htail_mem x hx),
        fun x hx => lt_of_lt_of_le (hfb x (htail_mem x hx)) hmono,
        fun x hx => lt_of_lt_of_le (hhb x hx) hmono,
        hheld⟩
    | some r =>
      have hcases := acquire_some_cases n s r (by rw [hacq])
      rw [hacq] at hcases
      have hr_notheld : r ∉ held := by
        rcases hcases with ⟨rest, hfr⟩ | ⟨-, hr2, -⟩
        · exact hdisj r (by rw [hfr]; exact List.mem_cons_self r rest)
        · intro hmem
          exact absurd (hhb r hmem) (by rw [hr2]; exact lt_irrefl _)
      have hr_bound : r < s2.nextRegion := by
        rcases hcases with ⟨rest, hfr⟩ | ⟨-, hr2, hlt⟩
        · exact lt_of_lt_of_le (hfb r (by rw [hfr]; exact List.mem_cons_self r rest))
            hmono
        · rw [hr2]; exact hlt
      simp only [stepOp, hacq, PoolInv]
      refine ⟨htail_nd, ?_, ?_, ?_, ?_⟩
      · intro x hx
        rw [List.mem_append, List.mem_singleton]
        rintro (hmem | hxr)
        · exact hdisj x (htail_mem x hx) hmem
        · rcases hcases with ⟨rest, hfr⟩ | ⟨hfr, -, -⟩
          · rw [hft, hfr] at hx
            have : r ∉ rest := (List.nodup_cons.mp (hfr ▸ hnd)).1
            exact this (hxr ▸ hx)
          · rw [hft, hfr] at hx
            cases hx
      · exact fun x hx => lt_of_lt_of_le (hfb x (htail_mem x hx)) hmono
      · intro x hx
        rw [List.mem_append, List.mem_singleton] at hx
        rcases hx with hmem | hxr
        · exact lt_of_lt_of_le (hhb x hmem) hmono
        · rw [hxr]; exact hr_bound
      · rw [List.nodup_append]
        exact ⟨hheld, List.nodup_singleton r,
          by rwa [List.disjoint_singleton]⟩
  | release r =>
    by_cases hr : r ∈ held
    · simp only [stepOp, hr, if_true, PoolInv, set_to_unused, enqueue, logA]
      refine ⟨?_, ?_, ?_, ?_, hheld.erase r⟩
      · rw [List.nodup_append]
        refine ⟨hnd, List.nodup_singleton r, ?_⟩
        rw [List.disjoint_singleton]
        exact fun hmem => hdisj r hmem hr
      · intro x hx
        rw [List.mem_append, List.mem_singleton] at hx
        rcases hx with hmem | hxr
        · exact fun hin => hdisj x hmem (List.mem_of_mem_erase hin)
        · rw [hxr]
          intro hin
          exact ((List.Nodup.mem_erase_iff hheld).mp hin).1 rfl
      · intro x hx
        rw [List.mem_append, List.mem_singleton] at hx
        rcases hx with hmem | hxr
        · exact hfb x hmem
        · rw [hxr]; exact hhb r hr
      · exact fun x hx => hhb x (List.mem_of_mem_erase hx)
    · simp only [stepOp, hr, if_false, PoolInv]
      exact ⟨hnd, hdisj, hfb, hhb, hheld⟩

/-- Every state reachable by pool-level operations satisfies the pool
invariant. -/
theorem runOps_inv (ops : List Op) : PoolInv (runOps ops) := by
  have hgen : ∀ (l : List Op) (p : St × List Nat),
      PoolInv p → PoolInv (l.foldl stepOp p) := by
    intro l
    induction l with
    | nil => exact fun p hp => hp
    | cons op rest ih => exact fun p hp => ih _ (stepOp_inv p op hp)
  refine hgen ops (initState, []) ?_
  refine ⟨List.nodup_nil, ?_, ?_, ?_, List.nodup_nil⟩ <;> simp [initState]

/-- C8: for every sequence of acquire and release operations, a region that
is currently held by an in-flight operation is not in the free pool, and a
further acquisition - of any size - cannot hand it out again before a
matching release occurred. -/
theorem C8_no_double_use (ops : List Op) (r : Nat)
    (h : r ∈ (runOps ops).2) :
    r ∉ (runOps ops).1.front ∧
    ∀ n r2, (get_first_free_staging_area n (runOps ops).1).1 = some r2 →
      r2 ≠ r := by
  obtain ⟨hnd, hdisj, hfb, hhb, hheld⟩ := runOps_inv ops
  refine ⟨fun hmem => hdisj r hmem h, ?_⟩
  intro n r2 hacq heq
  subst heq
  rcases acquire_some_cases n _ _ hacq with ⟨rest, hf⟩ | ⟨-, hr2, -⟩
  · exact hdisj r2 (by rw [hf]; exact List.mem_cons_self r2 rest) h
  · exact absurd (hhb r2 h) (by rw [hr2]; exact lt_irrefl _)

/-- Witness for C8: after two acquisitions region 1 is in flight, absent
from the free pool, and a further acquisition does not hand it out. -/
theorem C8_witness :
    1 ∈ (runOps [Op.acquire 1, Op.acquire 1]).2 ∧
    1 ∉ (runOps [Op.acquire 1, Op.acquire 1]).1.front ∧
    (get_first_free_staging_area 5 (runOps [Op.acquire 1, Op.acquire 1]).1).1
      ≠ some 1 := by
  refine ⟨by decide, (C8_no_double_use [Op.acquire 1, Op.acquire 1] 1 (by decide)).1, ?_⟩
  intro hs
  exact (C8_no_double_use [Op.acquire 1, Op.acquire 1] 1 (by decide)).2 5 1 hs rfl

end PTXStream
